import Mathlib

/-!
Shallow embedding of the runtime-configuration engine in `src/env.ts`
(classes `AbstractEnv` and `RuntimeConfigEnv`).

JavaScript objects holding configuration are modelled as association
lists from string keys to a small universe of values; `undefined` /
`null` fields of the engine state are modelled with `Option`.  The
asynchronous watch loop is modelled as a step function: one call of
`watchCycle` consumes the outcome of one outstanding long-poll request
(the response, or the transport error) together with the outcome of the
variable fetch that the cycle may launch, and returns the successor
state plus the externally observable events of the cycle (observer
invocations and settlements of queued `ready()` promises).
-/

namespace RuntimeConfig

/-- A JSON-like configuration value; `vcred` stands for the credential
object that `data` injects at the path `firebase.credential`. -/
inductive Value where
  | vstr (s : String)
  | vnum (n : Int)
  | vbool (b : Bool)
  | vcred
  | vobj (fields : List (String × Value))

/-- A configuration object (`env.Data` in the source): an association
list of string keys. -/
abbrev Data := List (String × Value)

/-- Property lookup on an object. -/
def lookup : Data → String → Option Value
  | [], _ => none
  | (k, v) :: rest, key => if k = key then some v else lookup rest key

/-- The keys of an object. -/
def keys (d : Data) : List String := d.map Prod.fst

/-- Assignment of one property, as JavaScript does it: overwrite the
existing entry, or append a new one. -/
def setKey (d : Data) (k : String) (v : Value) : Data :=
  if (keys d).contains k then
    d.map (fun p => if p.1 = k then (k, v) else p)
  else
    d ++ [(k, v)]

/-- Lodash `assign` of a source object `b` onto a target `a`: entries of
`b` win on key collision. -/
def assign (a b : Data) : Data :=
  b.foldl (fun acc p => setKey acc p.1 p.2) a

/-- Lodash `set(obj, 'firebase.credential', credential)`: the nested
path is created (replacing a non-object `firebase` entry if necessary)
and the credential stored under it. -/
def setFirebaseCredential (d : Data) : Data :=
  let fb : List (String × Value) :=
    match lookup d "firebase" with
    | some (Value.vobj o) => o
    | _ => []
  setKey d "firebase" (Value.vobj (setKey fb "credential" Value.vcred))

/-- An error value; `statusCode` models `_.get(err, 'response.statusCode')`
(absent when the error carries no HTTP response). -/
structure Err where
  statusCode : Option Nat
  msg : String
deriving DecidableEq, Repr

/-- The `Metadata` interface: the JSON document embedded in the `text`
field of an UPDATED watch response. -/
structure Metadata where
  version : Option String
  reserved : Option Data
  latest : Option Data

/-- Settlement of a promise returned by `ready()`. -/
inductive Settlement where
  | resolved
  | rejected (e : Err)

/-- The state of a `RuntimeConfigEnv` instance.  `requestsIssued` counts
the watch requests that have been sent, so that re-arming of the loop is
observable. -/
structure EnvState where
  _ready : Bool
  _readyError : Option Err
  _readyListeners : List Nat
  observerCount : Nat
  credentialPresent : Bool
  projectIdPresent : Bool
  lastUpdated : String
  version : Option String
  _custom : Option Data
  _customFromMeta : Option Data
  _reserved : Option Data
  _merged : Option Data
  _watching : Bool
  requestsIssued : Nat

/-- `new Date(0).toISOString()`, the initial `lastUpdated`. -/
def epochTime : String := "1970-01-01T00:00:00.000Z"

/-- The body of `watch()` up to issuing the request: if no long poll is
outstanding, set the guard and send the request. -/
def watchStart (s : EnvState) : EnvState :=
  if s._watching then s
  else { s with _watching := true, requestsIssued := s.requestsIssued + 1 }

/-- The `RuntimeConfigEnv` constructor: store credential and project id,
initialise `lastUpdated` to the epoch, and start watching only when both
credential and project id are present. -/
def mkEnv (credentialPresent projectIdPresent : Bool) : EnvState :=
  let s : EnvState :=
    { _ready := false
      _readyError := none
      _readyListeners := []
      observerCount := 0
      credentialPresent := credentialPresent
      projectIdPresent := projectIdPresent
      lastUpdated := epochTime
      version := none
      _custom := none
      _customFromMeta := none
      _reserved := none
      _merged := none
      _watching := false
      requestsIssued := 0 }
  if credentialPresent && projectIdPresent then watchStart s else s

/-- Result of one call to `ready()` for the caller: an already settled
promise, or a queued (pending) one identified by `id`. -/
inductive ReadyResult where
  | resolvedNow
  | rejectedNow (e : Err)
  | pending (id : Nat)

/-- `AbstractEnv.ready()`: if readiness is established, return a settled
promise according to `_readyError`; otherwise queue the caller. -/
def ready (s : EnvState) (id : Nat) : EnvState × ReadyResult :=
  if s._ready then
    match s._readyError with
    | some e => (s, ReadyResult.rejectedNow e)
    | none => (s, ReadyResult.resolvedNow)
  else
    ({ s with _readyListeners := s._readyListeners ++ [id] }, ReadyResult.pending id)

/-- `AbstractEnv.observe(callback)`: register one more observer. -/
def observe (s : EnvState) : EnvState :=
  { s with observerCount := s.observerCount + 1 }

/-- `AbstractEnv._notifyReady(err?)`: mark the instance ready and settle
every queued listener (reject with `err` when present, resolve
otherwise).  As in the source, `_readyError` is not assigned. -/
def notifyReadyCore (s : EnvState) (err : Option Err) :
    EnvState × List (Nat × Settlement) :=
  let outcome := match err with
    | none => Settlement.resolved
    | some e => Settlement.rejected e
  ({ s with _ready := true, _readyListeners := [] },
   s._readyListeners.map (fun id => (id, outcome)))

/-- `AbstractEnv._notifyObservers(data)`: call every registered observer
with `data` (`none` models the JavaScript value `null`). -/
def notifyObserversEv (s : EnvState) (d : Option Data) :
    List (Nat × Option Data) :=
  (List.range s.observerCount).map (fun i => (i, d))

/-- Result of reading the `data` getter. -/
inductive DataResult where
  | notReady
  | value (d : Data)

/-- The merge computed by the `data` getter when the cache is empty:
`_.assign({}, this._custom, this._reserved)` (absent halves are skipped,
as `assign` skips `undefined` sources), followed by
`_.set(merged, 'firebase.credential', credential)` when a credential is
configured. -/
def computeMerged (s : EnvState) : Data :=
  let m0 := assign (assign [] (s._custom.getD [])) (s._reserved.getD [])
  if s.credentialPresent then setFirebaseCredential m0 else m0

/-- `RuntimeConfigEnv.data`: throw before readiness; return the cached
merge when present; otherwise recompute the merge and cache it. -/
def dataGet (s : EnvState) : EnvState × DataResult :=
  if s._ready then
    match s._merged with
    | some m => (s, DataResult.value m)
    | none =>
        let m := computeMerged s
        ({ s with _merged := some m }, DataResult.value m)
  else
    (s, DataResult.notReady)

/-- The outcome of the variable-fetch GET request issued by `fetchVar`
for a non-`v0` version: the response's `text` field parses as JSON, it
fails to parse, or the request itself fails. -/
inductive FetchVarOutcome where
  | parsed (d : Data)
  | malformed
  | reqErr (e : Err)

/-- Result of the promise produced by `fetch`'s source expression: a
resolved value (`none` models `null`) or a rejection. -/
inductive FetchResult where
  | value (d : Option Data)
  | failure (e : Err)

/-- `RuntimeConfigEnv.fetchVar(name)`: version `v0` resolves at once to
an empty object without a request; otherwise the GET is issued and its
`text` field parsed, malformed JSON resolving to `null` and a request
failure rejecting. -/
def fetchVar (version : Option String) (o : FetchVarOutcome) : FetchResult :=
  if version = some "v0" then FetchResult.value (some [])
  else
    match o with
    | FetchVarOutcome.parsed d => FetchResult.value (some d)
    | FetchVarOutcome.malformed => FetchResult.value none
    | FetchVarOutcome.reqErr e => FetchResult.failure e

/-- The expression `this._customFromMeta || this.fetchVar(this.version)`
in `fetch`: the Boolean reports whether `fetchVar` was consulted (the
Variable Fetcher triggered) rather than the stored inlined metadata. -/
def fetchSelect (s : EnvState) (o : FetchVarOutcome) : Bool × FetchResult :=
  match s._customFromMeta with
  | some d => (false, FetchResult.value (some d))
  | none => (true, fetchVar s.version o)

/-- Observable result of `fetch()`'s reconciliation. -/
structure FetchOut where
  state : EnvState
  delivered : List (Nat × Option Data)
  settlements : List (Nat × Settlement)
  usedVar : Bool

/-- `RuntimeConfigEnv.fetch()` reconciliation: on success store
`data || emptyMap` into `_custom`, invalidate the merge cache, notify
readiness with success and observers with the raw fetched value; on
failure store an empty `_custom`, invalidate the cache and notify
readiness with the error (no observer notification). -/
def fetchStep (s : EnvState) (o : FetchVarOutcome) : FetchOut :=
  let p := fetchSelect s o
  match p.2 with
  | FetchResult.value d =>
      let s1 := { s with _merged := none, _custom := some (d.getD []) }
      let q := notifyReadyCore s1 none
      ⟨q.1, notifyObserversEv q.1 d, q.2, p.1⟩
  | FetchResult.failure e =>
      let s1 := { s with _merged := none, _custom := some [] }
      let q := notifyReadyCore s1 (some e)
      ⟨q.1, [], q.2, p.1⟩

/-- The `_meta` setter: store the announced version (defaulting to
`v0`), the reserved map (defaulting to empty), invalidate the merge
cache, and record inlined custom configuration only when `latest` is
present (an existing `_customFromMeta` is kept otherwise). -/
def setMeta (s : EnvState) (m : Metadata) : EnvState :=
  { s with
      version := some (m.version.getD "v0")
      _reserved := some (m.reserved.getD [])
      _merged := none
      _customFromMeta :=
        match m.latest with
        | some l => some l
        | none => s._customFromMeta }

/-- The outcome of one long-poll watch request: an UPDATED response
(whose `text` field parsed into metadata, or failed to parse when
`meta = none`), a DELETED response, a response with an unrecognized
state, or a transport error. -/
inductive WatchOutcome where
  | updated (meta : Option Metadata) (updateTime : String)
  | deleted (updateTime : String)
  | otherState
  | transportErr (e : Err)

/-- Intermediate result of the two response handlers of the promise
chain in `watch()`: the successor state, the observer invocations made
synchronously, whether `fetch()` was launched, and whether the chain
reached the final re-arming `then` handler (a rejected chain skips
it). -/
structure RespondOut where
  state : EnvState
  delivered : List (Nat × Option Data)
  fetchLaunched : Bool
  chainOk : Bool

/-- The two response handlers of `watch()`'s request promise: UPDATED
parses the metadata (a parse failure throws, rejecting the chain),
stores it, advances `lastUpdated` and launches `fetch()`; DELETED
notifies observers with an empty map, clears `_custom`, nulls `version`
and advances `lastUpdated`; an unrecognized state does nothing; a
transport error is swallowed when its status code is 502 and re-raised
otherwise. -/
def watchRespond (s : EnvState) (o : WatchOutcome) : RespondOut :=
  match o with
  | WatchOutcome.updated m t =>
      match m with
      | some meta =>
          let s1 := { setMeta s meta with lastUpdated := t }
          ⟨s1, [], true, true⟩
      | none => ⟨s, [], false, false⟩
  | WatchOutcome.deleted t =>
      ⟨{ s with _custom := some [], version := none, lastUpdated := t },
       notifyObserversEv s (some []), false, true⟩
  | WatchOutcome.otherState => ⟨s, [], false, true⟩
  | WatchOutcome.transportErr e =>
      if e.statusCode = some 502 then ⟨s, [], false, true⟩
      else ⟨s, [], false, false⟩

/-- The final `then` handler of the chain in `watch()`: clear the guard
and call `watch()` again, which immediately issues the next request. -/
def rearm (s : EnvState) : EnvState :=
  watchStart { s with _watching := false }

/-- Everything observable about one completed watch cycle. -/
structure CycleOut where
  state : EnvState
  delivered : List (Nat × Option Data)
  settlements : List (Nat × Settlement)
  fetchLaunched : Bool
  fetchedVar : Bool
  rearmed : Bool

/-- One full watch cycle: process the response (or error), run the
reconciliation of the launched `fetch()` (whose variable-fetch outcome
is `fo`), and re-arm the loop when the chain was not rejected.  The
`fetch()` promise is not part of the chain, so re-arming is independent
of the fetch outcome. -/
def watchCycle (s : EnvState) (o : WatchOutcome) (fo : FetchVarOutcome) :
    CycleOut :=
  let r := watchRespond s o
  let f : FetchOut :=
    if r.fetchLaunched then fetchStep r.state fo
    else ⟨r.state, [], [], false⟩
  let s2 := if r.chainOk then rearm f.state else f.state
  ⟨s2, r.delivered ++ f.delivered, f.settlements, r.fetchLaunched, f.usedVar,
   r.chainOk⟩

/-- Whether the promise chain of a watch cycle with outcome `o` reaches
its final re-arming handler: an UPDATED response with parseable
metadata, a DELETED response, an unrecognized state, or a 502 transport
error do; any other transport error (and an UPDATED response whose
metadata fails to parse) rejects the chain. -/
def survivesChain : WatchOutcome → Bool
  | WatchOutcome.updated m _ => m.isSome
  | WatchOutcome.deleted _ => true
  | WatchOutcome.otherState => true
  | WatchOutcome.transportErr e => if e.statusCode = some 502 then true else false

/-- The `updateTime` a watch cycle actually assigns to `lastUpdated`,
when it assigns one: only an UPDATED response with parseable metadata or
a DELETED response do. -/
def appliedTime : WatchOutcome → Option String
  | WatchOutcome.updated (some _) t => some t
  | WatchOutcome.updated none _ => none
  | WatchOutcome.deleted t => some t
  | WatchOutcome.otherState => none
  | WatchOutcome.transportErr _ => none

/-- Strict lexicographic comparison of character lists by code point;
on equal-length ISO-8601 timestamps this is chronological order. -/
def charsBefore : List Char → List Char → Bool
  | [], [] => false
  | [], _ :: _ => true
  | _ :: _, [] => false
  | c :: cs, d :: ds =>
      if c.toNat < d.toNat then true
      else if c.toNat = d.toNat then charsBefore cs ds
      else false

/-- `a` is strictly earlier than `b` as a timestamp string. -/
def strBefore (a b : String) : Bool := charsBefore a.data b.data

/-- An externally triggered event on an engine instance: a call of one
of the three public operations, or completion of an outstanding watch
request (with the associated variable-fetch outcome). -/
inductive EngineEvent where
  | readyCall (id : Nat)
  | observeCall
  | dataCall
  | watchResponse (o : WatchOutcome) (fo : FetchVarOutcome)

/-- One event step.  A watch response can only arrive while a request is
outstanding, which the `_watching` flag over-approximates; when no
request was ever issued the response event is a no-op.  The second
component collects the settlements of queued `ready()` promises the
event causes. -/
def stepEvent (s : EnvState) : EngineEvent → EnvState × List (Nat × Settlement)
  | EngineEvent.readyCall id => ((ready s id).1, [])
  | EngineEvent.observeCall => (observe s, [])
  | EngineEvent.dataCall => ((dataGet s).1, [])
  | EngineEvent.watchResponse o fo =>
      if s._watching then
        let c := watchCycle s o fo
        (c.state, c.settlements)
      else (s, [])

/-- Run a sequence of events, collecting all settlements. -/
def runTrace (s : EnvState) : List EngineEvent → EnvState × List (Nat × Settlement)
  | [] => (s, [])
  | e :: es =>
      let p := stepEvent s e
      let q := runTrace p.1 es
      (q.1, p.2 ++ q.2)

/-! ### Concrete fixtures used to evaluate the engine on explicit inputs -/

/-- A transport error with HTTP status 500. -/
def err500 : Err := { statusCode := some 500, msg := "network failure" }

/-- Watch metadata announcing version `v1` with inlined custom
configuration. -/
def metaWithLatest : Metadata :=
  { version := some "v1", reserved := none, latest := some [("a", Value.vnum 1)] }

/-- Watch metadata announcing version `v2` without inlined custom
configuration. -/
def metaNoLatest : Metadata :=
  { version := some "v2", reserved := none, latest := none }

def t1990 : String := "1990-01-01T00:00:00.000Z"

def t2020 : String := "2020-01-01T00:00:00.000Z"

def t2021 : String := "2021-01-01T00:00:00.000Z"

/-- An engine constructed with both credential and project id. -/
def engine0 : EnvState := mkEnv true true

/-- `engine0` after one UPDATED cycle carrying inlined custom
configuration `a = 1`. -/
def sReady : EnvState :=
  (watchCycle engine0 (WatchOutcome.updated (some metaWithLatest) t2020)
    FetchVarOutcome.malformed).state

/-- `sReady` after one read of `data` has populated the merge cache. -/
def sCached : EnvState := (dataGet sReady).1

/-- `sCached` after a DELETED watch cycle. -/
def sDeleted : EnvState :=
  (watchCycle sCached (WatchOutcome.deleted t2021) FetchVarOutcome.malformed).state

/-- `engine0` with one observer registered. -/
def sObs : EnvState := observe engine0

/-- A ready engine state used to exercise the `data` accessor: custom
holds `x = 1`, reserved holds `x = 2` and `y = 3`, a credential is
configured and the merge cache is empty. -/
def sMergeDemo : EnvState :=
  { _ready := true
    _readyError := none
    _readyListeners := []
    observerCount := 0
    credentialPresent := true
    projectIdPresent := true
    lastUpdated := t2020
    version := some "v1"
    _custom := some [("x", Value.vnum 1)]
    _customFromMeta := none
    _reserved := some [("x", Value.vnum 2), ("y", Value.vnum 3)]
    _merged := none
    _watching := true
    requestsIssued := 1 }

/-- A sample event trace against an engine that never started
watching. -/
def idleTrace : List EngineEvent :=
  [EngineEvent.readyCall 0, EngineEvent.dataCall, EngineEvent.observeCall,
   EngineEvent.watchResponse (WatchOutcome.deleted t2020) FetchVarOutcome.malformed,
   EngineEvent.readyCall 1]

/-! ### Lemmas about object lookup, `setKey`, `assign` -/

theorem lookup_cons (p : String × Value) (rest : Data) (k : String) :
    lookup (p :: rest) k = if p.1 = k then some p.2 else lookup rest k := rfl

theorem lookup_eq_none (d : Data) (k : String) (h : k ∉ keys d) :
    lookup d k = none := by
  induction d with
  | nil => rfl
  | cons p rest ih =>
      rw [lookup_cons]
      simp only [keys, List.map_cons, List.mem_cons, not_or] at h
      rw [if_neg (fun hk : p.1 = k => h.1 hk.symm)]
      exact ih h.2

theorem lookup_append_of_none (d e : Data) (k : String)
    (h : lookup d k = none) : lookup (d ++ e) k = lookup e k := by
  induction d with
  | nil => rfl
  | cons p rest ih =>
      rw [lookup_cons] at h
      rw [List.cons_append, lookup_cons]
      by_cases hp : p.1 = k
      · rw [if_pos hp] at h
        exact absurd h (by simp)
      · rw [if_neg hp] at h
        rw [if_neg hp]
        exact ih h

theorem lookup_append_of_some (d e : Data) (k : String) (v : Value)
    (h : lookup d k = some v) : lookup (d ++ e) k = some v := by
  induction d with
  | nil => exact absurd h (by simp [lookup])
  | cons p rest ih =>
      rw [lookup_cons] at h
      rw [List.cons_append, lookup_cons]
      by_cases hp : p.1 = k
      · rwa [if_pos hp] at h ⊢
      · rw [if_neg hp] at h
        rw [if_neg hp]
        exact ih h

theorem lookup_map_setKey_self (d : Data) (k : String) (v : Value)
    (h : k ∈ keys d) :
    lookup (d.map (fun p => if p.1 = k then (k, v) else p)) k = some v := by
  induction d with
  | nil => exact absurd h (by simp [keys])
  | cons p rest ih =>
      rw [List.map_cons]
      by_cases hp : p.1 = k
      · have hfp : (if p.1 = k then (k, v) else p) = (k, v) := if_pos hp
        rw [hfp, lookup_cons, if_pos rfl]
      · have hfp : (if p.1 = k then (k, v) else p) = p := if_neg hp
        rw [hfp, lookup_cons, if_neg hp]
        refine ih ?_
        simp only [keys, List.map_cons, List.mem_cons] at h
        exact h.resolve_left (fun hk => hp hk.symm)

theorem lookup_map_setKey_other (d : Data) (k : String) (v : Value)
    (k2 : String) (h : k2 ≠ k) :
    lookup (d.map (fun p => if p.1 = k then (k, v) else p)) k2 = lookup d k2 := by
  induction d with
  | nil => rfl
  | cons p rest ih =>
      rw [List.map_cons]
      by_cases hp : p.1 = k
      · have hfp : (if p.1 = k then (k, v) else p) = (k, v) := if_pos hp
        rw [hfp, lookup_cons, lookup_cons,
          if_neg (fun hk : k = k2 => h hk.symm),
          if_neg (fun hk : p.1 = k2 => h (hp ▸ hk).symm)]
        exact ih
      · have hfp : (if p.1 = k then (k, v) else p) = p := if_neg hp
        rw [hfp, lookup_cons, lookup_cons]
        by_cases hq : p.1 = k2
        · rw [if_pos hq, if_pos hq]
        · rw [if_neg hq, if_neg hq]
          exact ih

theorem lookup_setKey_self (d : Data) (k : String) (v : Value) :
    lookup (setKey d k v) k = some v := by
  unfold setKey
  by_cases h : k ∈ keys d
  · rw [if_pos (by simpa [List.elem_iff] using h)]
    exact lookup_map_setKey_self d k v h
  · rw [if_neg (by simpa [List.elem_iff] using h)]
    rw [lookup_append_of_none d _ k (lookup_eq_none d k h)]
    rw [lookup_cons, if_pos rfl]

theorem lookup_setKey_other (d : Data) (k : String) (v : Value)
    (k2 : String) (h : k2 ≠ k) :
    lookup (setKey d k v) k2 = lookup d k2 := by
  unfold setKey
  split
  · exact lookup_map_setKey_other d k v k2 h
  · cases hd : lookup d k2 with
    | some w => exact lookup_append_of_some d _ k2 w hd
    | none =>
        rw [lookup_append_of_none d _ k2 hd, lookup_cons,
          if_neg (fun hk : k = k2 => h hk.symm)]
        rfl

theorem lookup_assign_of_not_mem (b : Data) (a : Data) (k : String)
    (h : k ∉ keys b) : lookup (assign a b) k = lookup a k := by
  induction b generalizing a with
  | nil => rfl
  | cons p rest ih =>
      simp only [keys, List.map_cons, List.mem_cons, not_or] at h
      have step : assign a (p :: rest) = assign (setKey a p.1 p.2) rest := rfl
      rw [step, ih (setKey a p.1 p.2) h.2]
      exact lookup_setKey_other a p.1 p.2 k (fun hk => h.1 hk)

theorem lookup_assign_of_lookup (b : Data) (a : Data) (k : String) (v : Value)
    (hnd : (keys b).Nodup) (h : lookup b k = some v) :
    lookup (assign a b) k = some v := by
  induction b generalizing a with
  | nil => exact absurd h (by simp [lookup])
  | cons p rest ih =>
      have step : assign a (p :: rest) = assign (setKey a p.1 p.2) rest := rfl
      simp only [keys, List.map_cons, List.nodup_cons] at hnd
      rw [lookup_cons] at h
      by_cases hp : p.1 = k
      · rw [if_pos hp] at h
        have hv : v = p.2 := (Option.some_injective _ h).symm
        have hnm : k ∉ keys rest := hp ▸ hnd.1
        rw [step, lookup_assign_of_not_mem rest (setKey a p.1 p.2) k hnm, hv,
          ← hp]
        exact lookup_setKey_self a p.1 p.2
      · rw [if_neg hp] at h
        rw [step]
        exact ih (setKey a p.1 p.2) hnd.2 h

/-! ### Field-preservation lemmas for the cycle machinery -/

theorem rearm_eq (s : EnvState) :
    rearm s = { s with _watching := true, requestsIssued := s.requestsIssued + 1 } :=
  rfl

theorem fetchStep_watching (s : EnvState) (o : FetchVarOutcome) :
    (fetchStep s o).state._watching = s._watching := by
  unfold fetchStep
  dsimp only
  split <;> rfl

theorem fetchStep_requestsIssued (s : EnvState) (o : FetchVarOutcome) :
    (fetchStep s o).state.requestsIssued = s.requestsIssued := by
  unfold fetchStep
  dsimp only
  split <;> rfl

theorem fetchStep_lastUpdated (s : EnvState) (o : FetchVarOutcome) :
    (fetchStep s o).state.lastUpdated = s.lastUpdated := by
  unfold fetchStep
  dsimp only
  split <;> rfl

theorem fetchStep_ready (s : EnvState) (o : FetchVarOutcome) :
    (fetchStep s o).state._ready = true := by
  unfold fetchStep
  dsimp only
  split <;> rfl

theorem fetchStep_listeners (s : EnvState) (o : FetchVarOutcome) :
    (fetchStep s o).state._readyListeners = [] := by
  unfold fetchStep
  dsimp only
  split <;> rfl

theorem fetchStep_of_value (s : EnvState) (o : FetchVarOutcome) (d : Option Data)
    (h : (fetchSelect s o).2 = FetchResult.value d) :
    fetchStep s o =
      ⟨{ s with _merged := none, _custom := some (d.getD []), _ready := true,
                _readyListeners := [] },
       (List.range s.observerCount).map (fun i => (i, d)),
       s._readyListeners.map (fun id => (id, Settlement.resolved)),
       (fetchSelect s o).1⟩ := by
  unfold fetchStep
  dsimp only
  rw [h]
  rfl

theorem fetchStep_of_failure (s : EnvState) (o : FetchVarOutcome) (e : Err)
    (h : (fetchSelect s o).2 = FetchResult.failure e) :
    fetchStep s o =
      ⟨{ s with _merged := none, _custom := some [], _ready := true,
                _readyListeners := [] },
       [],
       s._readyListeners.map (fun id => (id, Settlement.rejected e)),
       (fetchSelect s o).1⟩ := by
  unfold fetchStep
  dsimp only
  rw [h]
  rfl

theorem charsBefore_self (l : List Char) : charsBefore l l = false := by
  induction l with
  | nil => rfl
  | cons c cs ih => simp [charsBefore, Nat.lt_irrefl, ih]

theorem strBefore_self (a : String) : strBefore a a = false :=
  charsBefore_self a.data

/-! ### Claim theorems -/

/-- Claim C1 (code bug): evaluation of the code at the failing input.
After a listener is queued and the first fetch fails with `err500`, the
queued listener is rejected with the error and readiness is established,
yet `_readyError` is still unset (the source declares and reads the
field but never assigns it), so a later call to `ready()` returns a
resolved promise instead of rejecting with the captured error as the
claim states. -/
theorem c1_ready_after_failed_first_fetch_resolves :
    (watchCycle (ready engine0 0).1
        (WatchOutcome.updated (some metaNoLatest) t2020)
        (FetchVarOutcome.reqErr err500)).settlements
      = [(0, Settlement.rejected err500)] ∧
    (watchCycle (ready engine0 0).1
        (WatchOutcome.updated (some metaNoLatest) t2020)
        (FetchVarOutcome.reqErr err500)).state._ready = true ∧
    (watchCycle (ready engine0 0).1
        (WatchOutcome.updated (some metaNoLatest) t2020)
        (FetchVarOutcome.reqErr err500)).state._readyError = none ∧
    (ready (watchCycle (ready engine0 0).1
        (WatchOutcome.updated (some metaNoLatest) t2020)
        (FetchVarOutcome.reqErr err500)).state 1).2
      = ReadyResult.resolvedNow :=
  ⟨rfl, rfl, rfl, rfl⟩

/-- Claim C2, counterexample: a watch cycle that ends in a transport
error whose status code is 500 (not the benign 502) does not clear the
watching guard and does not issue the next long-poll request — the
promise chain rejects before its final re-arming handler, so the loop
terminates, contrary to the claim. -/
theorem c2_counterexample :
    (watchCycle engine0 (WatchOutcome.transportErr err500)
        FetchVarOutcome.malformed).rearmed = false ∧
    (watchCycle engine0 (WatchOutcome.transportErr err500)
        FetchVarOutcome.malformed).state._watching = true ∧
    (watchCycle engine0 (WatchOutcome.transportErr err500)
        FetchVarOutcome.malformed).state.requestsIssued
      = engine0.requestsIssued :=
  ⟨rfl, rfl, rfl⟩

/-- Claim C2, amended: a completed watch cycle re-arms (runs the final
handler, which clears the watching guard and immediately issues the next
long-poll request) exactly when its outcome survives the promise chain:
an UPDATED response with parseable metadata, a DELETED response, an
unrecognized state, or a 502 transport error.  On any other transport
error — and on an UPDATED response whose metadata fails to parse — the
chain rejects, the guard is never cleared and no further request is
issued: the loop terminates. -/
theorem c2_rearm_iff_chain_survives (s : EnvState) (o : WatchOutcome)
    (fo : FetchVarOutcome) :
    (watchCycle s o fo).rearmed = survivesChain o ∧
    (watchCycle s o fo).state.requestsIssued
      = (if survivesChain o then s.requestsIssued + 1 else s.requestsIssued) ∧
    (watchCycle s o fo).state._watching
      = (if survivesChain o then true else s._watching) := by
  cases o with
  | updated m t =>
      cases m with
      | some meta =>
          refine ⟨rfl, ?_, ?_⟩
          · show (rearm (fetchStep _ fo).state).requestsIssued = _
            rw [rearm_eq]
            show (fetchStep _ fo).state.requestsIssued + 1 = _
            rw [fetchStep_requestsIssued]
            rfl
          · show (rearm (fetchStep _ fo).state)._watching = _
            rw [rearm_eq]
            rfl
      | none => exact ⟨rfl, rfl, rfl⟩
  | deleted t => exact ⟨rfl, rfl, rfl⟩
  | otherState => exact ⟨rfl, rfl, rfl⟩
  | transportErr e =>
      by_cases h : e.statusCode = some 502
      · simp [watchCycle, watchRespond, survivesChain, h, rearm_eq]
      · simp [watchCycle, watchRespond, survivesChain, h]

/-- Claim C3 (code bug): evaluation of the code at the failing input.
After an UPDATED cycle stores custom configuration `a = 1` and a `data`
read caches the merge, a DELETED cycle empties `_custom` but leaves the
cached merge in place (the DELETED branch never nulls `_merged`), so the
next `data` read returns the stale snapshot still containing `a = 1`
instead of recomputing the merge from the new empty custom value. -/
theorem c3_deleted_leaves_stale_merge_cache :
    sDeleted._custom = some [] ∧
    sDeleted._merged
      = some [("a", Value.vnum 1), ("firebase", Value.vobj [("credential", Value.vcred)])] ∧
    (dataGet sDeleted).2
      = DataResult.value [("a", Value.vnum 1), ("firebase", Value.vobj [("credential", Value.vcred)])] ∧
    lookup [("a", Value.vnum 1), ("firebase", Value.vobj [("credential", Value.vcred)])] "a"
      = some (Value.vnum 1) ∧
    lookup (computeMerged sDeleted) "a" = none :=
  ⟨rfl, rfl, rfl, rfl, rfl⟩

/-- Claim C4 (code bug): evaluation of the code at the failing input.
The first UPDATED response carries inlined custom configuration, which
is stored in `_customFromMeta` and never cleared; a second UPDATED
response without a `latest` field announcing version `v2` then launches
`fetch()`, but the Variable Fetcher is not triggered: the stale inlined
configuration `a = 1` is reused even though the variable for `v2` would
have yielded `b = 2`. -/
theorem c4_no_latest_after_latest_skips_fetchVar :
    metaNoLatest.latest = none ∧
    (watchCycle sReady (WatchOutcome.updated (some metaNoLatest) t2021)
        (FetchVarOutcome.parsed [("b", Value.vnum 2)])).fetchLaunched = true ∧
    (watchCycle sReady (WatchOutcome.updated (some metaNoLatest) t2021)
        (FetchVarOutcome.parsed [("b", Value.vnum 2)])).fetchedVar = false ∧
    (watchCycle sReady (WatchOutcome.updated (some metaNoLatest) t2021)
        (FetchVarOutcome.parsed [("b", Value.vnum 2)])).state._custom
      = some [("a", Value.vnum 1)] ∧
    (watchCycle sReady (WatchOutcome.updated (some metaNoLatest) t2021)
        (FetchVarOutcome.parsed [("b", Value.vnum 2)])).state.version
      = some "v2" :=
  ⟨rfl, rfl, rfl, rfl, rfl⟩

/-- Claim C5, counterexample: with one observer registered, a cycle
whose fetch fails does set `_custom` to the empty map and establishes
readiness, but notifies no observer at all — contrary to the claim that
reconciliation notifies all registered observers whether the fetch
succeeded or failed. -/
theorem c5_counterexample :
    sObs.observerCount = 1 ∧
    (watchCycle sObs (WatchOutcome.updated (some metaNoLatest) t2020)
        (FetchVarOutcome.reqErr err500)).state._custom = some [] ∧
    (watchCycle sObs (WatchOutcome.updated (some metaNoLatest) t2020)
        (FetchVarOutcome.reqErr err500)).state._ready = true ∧
    (watchCycle sObs (WatchOutcome.updated (some metaNoLatest) t2020)
        (FetchVarOutcome.reqErr err500)).delivered = [] :=
  ⟨rfl, rfl, rfl, rfl⟩

theorem fetchStep_reconciliation (s : EnvState) (o : FetchVarOutcome) :
    (fetchStep s o).state._merged = none ∧
    (fetchStep s o).state._ready = true ∧
    (fetchStep s o).state._readyListeners = [] ∧
    (∀ d, (fetchSelect s o).2 = FetchResult.value d →
      (fetchStep s o).state._custom = some (d.getD []) ∧
      (fetchStep s o).delivered
        = (List.range s.observerCount).map (fun i => (i, d)) ∧
      (fetchStep s o).settlements
        = s._readyListeners.map (fun id => (id, Settlement.resolved))) ∧
    (∀ e, (fetchSelect s o).2 = FetchResult.failure e →
      (fetchStep s o).state._custom = some [] ∧
      (fetchStep s o).delivered = [] ∧
      (fetchStep s o).settlements
        = s._readyListeners.map (fun id => (id, Settlement.rejected e))) := by
  cases hsel : (fetchSelect s o).2 with
  | value d0 =>
      rw [fetchStep_of_value s o d0 hsel]
      refine ⟨rfl, rfl, rfl, fun d hd => ?_, fun e he =>
        FetchResult.noConfusion he⟩
      have hdd : d0 = d := by injection hd
      cases hdd
      exact ⟨rfl, rfl, rfl⟩
  | failure e0 =>
      rw [fetchStep_of_failure s o e0 hsel]
      refine ⟨rfl, rfl, rfl, fun d hd =>
        FetchResult.noConfusion hd, fun e he => ?_⟩
      have hee : e0 = e := by injection he
      cases hee
      exact ⟨rfl, rfl, rfl⟩

/-- Claim C5, amended: the reconciliation step after every fetch
invalidates the merged-snapshot cache, marks the instance ready and
settles each queued readiness promise exactly once (emptying the
queue).  When the fetch resolves with a value it stores that value into
`_custom` (an empty map when the value is null), resolves the queued
promises and notifies every registered observer with the raw fetched
value itself — which is null, not the stored empty map, when the fetch
yielded null.  When the fetch fails it stores an empty `_custom`,
rejects the queued promises with the error, and notifies no
observers. -/
theorem c5_reconciliation_behaviour (s : EnvState) (o : FetchVarOutcome) :
    (fetchStep s o).state._merged = none ∧
    (fetchStep s o).state._ready = true ∧
    (fetchStep s o).state._readyListeners = [] ∧
    (∀ d, (fetchSelect s o).2 = FetchResult.value d →
      (fetchStep s o).state._custom = some (d.getD []) ∧
      (fetchStep s o).delivered
        = (List.range s.observerCount).map (fun i => (i, d)) ∧
      (fetchStep s o).settlements
        = s._readyListeners.map (fun id => (id, Settlement.resolved))) ∧
    (∀ e, (fetchSelect s o).2 = FetchResult.failure e →
      (fetchStep s o).state._custom = some [] ∧
      (fetchStep s o).delivered = [] ∧
      (fetchStep s o).settlements
        = s._readyListeners.map (fun id => (id, Settlement.rejected e))) :=
  fetchStep_reconciliation s o

/-- Claim C5, witness for the amended theorem: on the concrete engine
with one observer, a fetch whose variable request returns malformed JSON
resolves with null; the reconciliation stores the empty map into
`_custom` and notifies the observer with null. -/
theorem c5_witness :
    (fetchSelect sObs FetchVarOutcome.malformed).2 = FetchResult.value none ∧
    (fetchStep sObs FetchVarOutcome.malformed).state._custom = some [] ∧
    (fetchStep sObs FetchVarOutcome.malformed).delivered = [(0, none)] := by
  refine ⟨rfl, ?_, ?_⟩
  · exact ((c5_reconciliation_behaviour sObs FetchVarOutcome.malformed).2.2.2.1
      none rfl).1
  · exact (((c5_reconciliation_behaviour sObs FetchVarOutcome.malformed).2.2.2.1
      none rfl).2.1).trans rfl

/-- Claim C6 (confirmed): every DELETED watch cycle sets the stored
custom configuration to an empty map, sets `version` to null, advances
`lastUpdated` to the response's `updateTime`, invokes every registered
observer with an empty map, and never enters the fetch/reconciliation
path. -/
theorem c6_deleted_cycle (s : EnvState) (t : String) (fo : FetchVarOutcome) :
    (watchCycle s (WatchOutcome.deleted t) fo).state._custom = some [] ∧
    (watchCycle s (WatchOutcome.deleted t) fo).state.version = none ∧
    (watchCycle s (WatchOutcome.deleted t) fo).state.lastUpdated = t ∧
    (watchCycle s (WatchOutcome.deleted t) fo).delivered
      = (List.range s.observerCount).map (fun i => (i, some ([] : Data))) ∧
    (watchCycle s (WatchOutcome.deleted t) fo).fetchLaunched = false ∧
    (watchCycle s (WatchOutcome.deleted t) fo).fetchedVar = false :=
  ⟨rfl, rfl, rfl, by simp [watchCycle, watchRespond, notifyObserversEv], rfl, rfl⟩

/-- Claim C7 (confirmed): when an UPDATED cycle (with no inlined custom
configuration available) fetches the variable for the announced version
and the response's `text` field fails to parse as JSON, the fetch
resolves to null rather than an error; the reconciliation stores an
empty `_custom`, establishes readiness successfully (each queued
listener is resolved, not rejected), and the loop still re-arms and
issues the next watch request. -/
theorem c7_malformed_fetch_resolves_null (s : EnvState) (meta : Metadata)
    (t : String) (hcm : s._customFromMeta = none) (hlat : meta.latest = none)
    (hv : meta.version.getD "v0" ≠ "v0") :
    fetchVar (some (meta.version.getD "v0")) FetchVarOutcome.malformed
      = FetchResult.value none ∧
    (watchCycle s (WatchOutcome.updated (some meta) t)
        FetchVarOutcome.malformed).state._custom = some [] ∧
    (watchCycle s (WatchOutcome.updated (some meta) t)
        FetchVarOutcome.malformed).state._ready = true ∧
    (watchCycle s (WatchOutcome.updated (some meta) t)
        FetchVarOutcome.malformed).settlements
      = s._readyListeners.map (fun id => (id, Settlement.resolved)) ∧
    (watchCycle s (WatchOutcome.updated (some meta) t)
        FetchVarOutcome.malformed).rearmed = true ∧
    (watchCycle s (WatchOutcome.updated (some meta) t)
        FetchVarOutcome.malformed).state.requestsIssued
      = s.requestsIssued + 1 := by
  have hfv : fetchVar (some (meta.version.getD "v0")) FetchVarOutcome.malformed
      = FetchResult.value none := by
    unfold fetchVar
    rw [if_neg (by simpa using hv)]
  have hsel : (fetchSelect (watchRespond s
      (WatchOutcome.updated (some meta) t)).state FetchVarOutcome.malformed).2
      = FetchResult.value none := by
    show (fetchSelect { setMeta s meta with lastUpdated := t }
      FetchVarOutcome.malformed).2 = FetchResult.value none
    unfold fetchSelect setMeta
    rw [hlat]
    simp only [hcm]
    exact hfv
  have hstep := fetchStep_reconciliation (watchRespond s
      (WatchOutcome.updated (some meta) t)).state FetchVarOutcome.malformed
  have hval := hstep.2.2.2.1 none hsel
  refine ⟨hfv, ?_, ?_, ?_, rfl, ?_⟩
  · show (rearm (fetchStep _ _).state)._custom = some []
    rw [rearm_eq]
    exact hval.1
  · show (rearm (fetchStep _ _).state)._ready = true
    rw [rearm_eq]
    exact hstep.2.1
  · exact hval.2.2
  · show (rearm (fetchStep _ _).state).requestsIssued = s.requestsIssued + 1
    rw [rearm_eq]
    show (fetchStep _ _).state.requestsIssued + 1 = s.requestsIssued + 1
    rw [fetchStep_requestsIssued]
    rfl

/-- Claim C7, witness: on the fresh engine, an UPDATED response
announcing version `v2` with no inlined configuration followed by a
malformed variable response yields empty custom configuration, readiness
established with success, and a re-armed loop. -/
theorem c7_witness :
    fetchVar (some "v2") FetchVarOutcome.malformed = FetchResult.value none ∧
    (watchCycle engine0 (WatchOutcome.updated (some metaNoLatest) t2020)
        FetchVarOutcome.malformed).state._custom = some [] ∧
    (watchCycle engine0 (WatchOutcome.updated (some metaNoLatest) t2020)
        FetchVarOutcome.malformed).state._ready = true ∧
    (watchCycle engine0 (WatchOutcome.updated (some metaNoLatest) t2020)
        FetchVarOutcome.malformed).settlements = [] ∧
    (watchCycle engine0 (WatchOutcome.updated (some metaNoLatest) t2020)
        FetchVarOutcome.malformed).rearmed = true ∧
    (watchCycle engine0 (WatchOutcome.updated (some metaNoLatest) t2020)
        FetchVarOutcome.malformed).state.requestsIssued = 2 :=
  c7_malformed_fetch_resolves_null engine0 metaNoLatest t2020 rfl rfl
    (by decide)

theorem lookup_computeMerged_of_reserved (s : EnvState) (reserved : Data)
    (hres : s._reserved = some reserved) (hnd : (keys reserved).Nodup)
    (k : String) (v : Value) (hv : lookup reserved k = some v)
    (hk : s.credentialPresent = true → k ≠ "firebase") :
    lookup (computeMerged s) k = some v := by
  have hm0 : lookup (assign (assign [] (s._custom.getD []))
      (s._reserved.getD [])) k = some v := by
    rw [hres]
    exact lookup_assign_of_lookup reserved _ k v hnd hv
  unfold computeMerged
  dsimp only
  cases hc : s.credentialPresent with
  | false => simpa using hm0
  | true =>
      show lookup (setFirebaseCredential _) k = some v
      unfold setFirebaseCredential
      dsimp only
      rw [lookup_setKey_other _ "firebase" _ k (hk hc)]
      exact hm0

theorem computeMerged_credential (s : EnvState)
    (hc : s.credentialPresent = true) :
    ∃ fb, lookup (computeMerged s) "firebase" = some (Value.vobj fb) ∧
      lookup fb "credential" = some Value.vcred := by
  unfold computeMerged
  dsimp only
  rw [hc]
  show ∃ fb, lookup (setFirebaseCredential _) "firebase"
    = some (Value.vobj fb) ∧ lookup fb "credential" = some Value.vcred
  unfold setFirebaseCredential
  dsimp only
  exact ⟨_, lookup_setKey_self _ "firebase" _, lookup_setKey_self _ "credential" _⟩

/-- Claim C8 (confirmed): the `data` accessor throws the "not ready"
error before readiness is established; after readiness (reading the
accessor on an invalidated cache) it returns the merged snapshot in
which every reserved entry wins over the custom entry of the same key —
unconditionally when no credential is configured, and for every key
other than `firebase` when one is — and into which, when a credential is
configured, the credential is injected at the nested path
`firebase.credential`. -/
theorem c8_data_accessor (s : EnvState) (reserved : Data)
    (hres : s._reserved = some reserved) (hnd : (keys reserved).Nodup) :
    (s._ready = false → (dataGet s).2 = DataResult.notReady) ∧
    (s._ready = true → s._merged = none →
      (dataGet s).2 = DataResult.value (computeMerged s) ∧
      (∀ k v, k ≠ "firebase" → lookup reserved k = some v →
        lookup (computeMerged s) k = some v) ∧
      (s.credentialPresent = false → ∀ k v, lookup reserved k = some v →
        lookup (computeMerged s) k = some v) ∧
      (s.credentialPresent = true → ∃ fb,
        lookup (computeMerged s) "firebase" = some (Value.vobj fb) ∧
        lookup fb "credential" = some Value.vcred)) := by
  constructor
  · intro hr
    simp [dataGet, hr]
  · intro hr hm
    refine ⟨by simp [dataGet, hr, hm], ?_, ?_,
      fun hc => computeMerged_credential s hc⟩
    · exact fun k v hk hv =>
        lookup_computeMerged_of_reserved s reserved hres hnd k v hv (fun _ => hk)
    · intro hc k v hv
      exact lookup_computeMerged_of_reserved s reserved hres hnd k v hv
        (fun h => absurd h (by simp [hc]))

/-- Claim C8, witness: on a concrete ready state with custom `x = 1`,
reserved `x = 2, y = 3` and a configured credential, `data` returns the
recomputed merge, in which `x` is the reserved value `2`, `y` is `3`,
and the credential sits at `firebase.credential`. -/
theorem c8_witness :
    (dataGet sMergeDemo).2 = DataResult.value (computeMerged sMergeDemo) ∧
    lookup (computeMerged sMergeDemo) "x" = some (Value.vnum 2) ∧
    lookup (computeMerged sMergeDemo) "y" = some (Value.vnum 3) ∧
    ∃ fb, lookup (computeMerged sMergeDemo) "firebase"
        = some (Value.vobj fb) ∧
      lookup fb "credential" = some Value.vcred := by
  have h := (c8_data_accessor sMergeDemo
    [("x", Value.vnum 2), ("y", Value.vnum 3)] rfl (by decide)).2 rfl rfl
  exact ⟨h.1, h.2.1 "x" _ (by decide) rfl, h.2.1 "y" _ (by decide) rfl,
    h.2.2.2 rfl⟩

/-- Claim C9, counterexample: the code assigns the server-supplied
`updateTime` to `lastUpdated` unconditionally, so a server that answers
with an earlier timestamp regresses it: after a cycle established
`lastUpdated` at year 2020, an UPDATED response stamped 1990 replaces it
with the strictly earlier value. -/
theorem c9_counterexample :
    sReady.lastUpdated = t2020 ∧
    (watchCycle sReady (WatchOutcome.updated (some metaNoLatest) t1990)
        FetchVarOutcome.malformed).state.lastUpdated = t1990 ∧
    strBefore t1990 t2020 = true :=
  ⟨rfl, rfl, by decide⟩

/-- Claim C9, amended: `lastUpdated` is monotonically non-decreasing
across watch cycles provided every applied response `updateTime` is not
earlier than the current `lastUpdated` (the server honors the
`newerThan` bound of the request); the code itself assigns the
server-supplied `updateTime` unconditionally, so an out-of-order server
value does regress it. -/
theorem c9_lastUpdated_monotone (s : EnvState) (o : WatchOutcome)
    (fo : FetchVarOutcome)
    (h : ∀ t, appliedTime o = some t → strBefore t s.lastUpdated = false) :
    strBefore (watchCycle s o fo).state.lastUpdated s.lastUpdated = false := by
  cases o with
  | updated m t =>
      cases m with
      | some meta =>
          have hlu : (watchCycle s (WatchOutcome.updated (some meta) t)
              fo).state.lastUpdated = t := by
            show (rearm (fetchStep _ fo).state).lastUpdated = t
            rw [rearm_eq]
            show (fetchStep _ fo).state.lastUpdated = t
            rw [fetchStep_lastUpdated]
            rfl
          rw [hlu]
          exact h t rfl
      | none => exact strBefore_self s.lastUpdated
  | deleted t =>
      have hlu : (watchCycle s (WatchOutcome.deleted t)
          fo).state.lastUpdated = t := rfl
      rw [hlu]
      exact h t rfl
  | otherState => exact strBefore_self s.lastUpdated
  | transportErr e =>
      by_cases h5 : e.statusCode = some 502
      · have hlu : (watchCycle s (WatchOutcome.transportErr e)
            fo).state.lastUpdated = s.lastUpdated := by
          simp [watchCycle, watchRespond, h5, rearm_eq]
        rw [hlu]
        exact strBefore_self s.lastUpdated
      · have hlu : (watchCycle s (WatchOutcome.transportErr e)
            fo).state.lastUpdated = s.lastUpdated := by
          simp [watchCycle, watchRespond, h5]
        rw [hlu]
        exact strBefore_self s.lastUpdated

/-- Claim C9, witness for the amended theorem: a DELETED response
stamped in 2020, arriving while `lastUpdated` is at the 1970 epoch, does
not regress `lastUpdated`. -/
theorem c9_witness :
    strBefore (watchCycle engine0 (WatchOutcome.deleted t2020)
        FetchVarOutcome.malformed).state.lastUpdated engine0.lastUpdated
      = false :=
  c9_lastUpdated_monotone engine0 (WatchOutcome.deleted t2020)
    FetchVarOutcome.malformed
    (fun t ht => by
      have hte : t2020 = t := by injection ht
      rw [← hte]
      decide)

theorem runTrace_unwatched (es : List EngineEvent) (s : EnvState)
    (hr : s._ready = false) (hw : s._watching = false) :
    (runTrace s es).1._ready = false ∧
    (runTrace s es).1._watching = false ∧
    (runTrace s es).1.requestsIssued = s.requestsIssued ∧
    (runTrace s es).2 = [] := by
  induction es generalizing s with
  | nil => exact ⟨hr, hw, rfl, rfl⟩
  | cons e rest ih =>
      cases e with
      | readyCall id =>
          have hstep : stepEvent s (EngineEvent.readyCall id)
              = ({ s with _readyListeners := s._readyListeners ++ [id] }, []) := by
            simp [stepEvent, ready, hr]
          have hrec := ih { s with _readyListeners := s._readyListeners ++ [id] }
            hr hw
          simp only [runTrace, hstep]
          exact ⟨hrec.1, hrec.2.1, hrec.2.2.1, by
            rw [List.nil_append]
            exact hrec.2.2.2⟩
      | observeCall =>
          have hstep : stepEvent s EngineEvent.observeCall = (observe s, []) := rfl
          have hrec := ih (observe s) hr hw
          simp only [runTrace, hstep]
          exact ⟨hrec.1, hrec.2.1, hrec.2.2.1, by
            rw [List.nil_append]
            exact hrec.2.2.2⟩
      | dataCall =>
          have hstep : stepEvent s EngineEvent.dataCall = (s, []) := by
            simp [stepEvent, dataGet, hr]
          have hrec := ih s hr hw
          simp only [runTrace, hstep]
          exact ⟨hrec.1, hrec.2.1, hrec.2.2.1, by
            rw [List.nil_append]
            exact hrec.2.2.2⟩
      | watchResponse o fo =>
          have hstep : stepEvent s (EngineEvent.watchResponse o fo) = (s, []) := by
            simp [stepEvent, hw]
          have hrec := ih s hr hw
          simp only [runTrace, hstep]
          exact ⟨hrec.1, hrec.2.1, hrec.2.2.1, by
            rw [List.nil_append]
            exact hrec.2.2.2⟩

/-- Claim C10 (confirmed): an engine constructed with its credential or
its project identifier absent never starts the watch loop (no watch
request is ever issued), never completes a fetch, and therefore every
promise returned by `ready()` stays forever unsettled: along every
event trace no settlement is ever emitted and every `ready()` call on
the resulting state is queued as pending. -/
theorem c10_never_ready (c p : Bool) (hcp : c = false ∨ p = false)
    (es : List EngineEvent) :
    (runTrace (mkEnv c p) es).1._ready = false ∧
    (runTrace (mkEnv c p) es).1.requestsIssued = 0 ∧
    (runTrace (mkEnv c p) es).2 = [] ∧
    ∀ id, (ready (runTrace (mkEnv c p) es).1 id).2 = ReadyResult.pending id := by
  have hand : (c && p) = false := by
    rcases hcp with h | h <;> simp [h]
  have hr : (mkEnv c p)._ready = false := by
    unfold mkEnv
    rw [hand]
    rfl
  have hw : (mkEnv c p)._watching = false := by
    unfold mkEnv
    rw [hand]
    rfl
  have hq : (mkEnv c p).requestsIssued = 0 := by
    unfold mkEnv
    rw [hand]
    rfl
  have ht := runTrace_unwatched es (mkEnv c p) hr hw
  refine ⟨ht.1, hq ▸ ht.2.2.1, ht.2.2.2, fun id => ?_⟩
  simp [ready, ht.1]

/-- Claim C10, witness: an engine built without a credential, run
through a concrete trace of `ready()`, `data`, `observe` calls and a
stray watch response, ends not ready, with no request issued, no
settlement emitted, and a further `ready()` call still pending. -/
theorem c10_witness :
    (runTrace (mkEnv false true) idleTrace).1._ready = false ∧
    (runTrace (mkEnv false true) idleTrace).1.requestsIssued = 0 ∧
    (runTrace (mkEnv false true) idleTrace).2 = [] ∧
    ∀ id, (ready (runTrace (mkEnv false true) idleTrace).1 id).2
      = ReadyResult.pending id :=
  c10_never_ready false true (Or.inl rfl) idleTrace

end RuntimeConfig
